import Mathlib

/-!
Verification of the upload-handler module (`src/main.py`) of the
file-upload web application.  The Python source is shallowly embedded:
pure helpers become Lean functions, the stateful upload workflow becomes
an explicit state-passing function over a `World` record together with a
trace of side-effect events, and the points at which the external
collaborators (filesystem, document store, relational store) may raise
exceptions are made explicit through a `FailureModel` oracle.
-/

namespace FileUpload

/-- `ALLOWED_EXTENSIONS` from `main.py` line 13: the fixed compile-time
set of allowed upload extensions. -/
def ALLOWED_EXTENSIONS : List String := ["txt", "pdf", "png", "jpg", "jpeg", "gif"]

/-- The characters of `filename.rsplit('.', 1)[1]` when `'.'` occurs in
the filename: everything after the last `'.'`. -/
def rsplitLast (cs : List Char) : List Char :=
  (cs.reverse.takeWhile (fun c => c ≠ '.')).reverse

/-- `allowed_file` from `main.py` lines 33-40:
`'.' in filename and filename.rsplit('.', 1)[1].lower() in ALLOWED_EXTENSIONS`.
Python `str.lower` is modelled by per-character ASCII lowercasing
(`Char.toLower`); the extensions compared against are all ASCII. -/
def allowed_file (filename : String) : Bool :=
  filename.toList.contains '.' &&
    ALLOWED_EXTENSIONS.contains (String.mk ((rsplitLast filename.toList).map Char.toLower))

/-- Python `str.isspace` on the ASCII range: the characters on which
`str.split()` (no separator) splits, restricted to code points `< 128`
(the only ones surviving the ASCII-encode step of `secure_filename`). -/
def isPySpace (c : Char) : Bool :=
  c = ' ' || c = '\t' || c = '\n' || c = '\r' || c = '\x0b' || c = '\x0c' ||
  c = '\x1c' || c = '\x1d' || c = '\x1e' || c = '\x1f'

/-- Python `str.split()` with no separator: splits on runs of whitespace
and discards empty pieces.  Accumulator-based so the recursion is
structural. -/
def splitWsAux : List Char → List Char → List (List Char)
  | [], acc => if acc.isEmpty then [] else [acc.reverse]
  | c :: cs, acc =>
      if isPySpace c then
        if acc.isEmpty then splitWsAux cs []
        else acc.reverse :: splitWsAux cs []
      else splitWsAux cs (c :: acc)

def splitWs (cs : List Char) : List (List Char) := splitWsAux cs []

/-- The character class `[A-Za-z0-9_.-]` of werkzeug's
`_filename_ascii_strip_re` (ASCII letter/digit tests only). -/
def allowedSecureChar (c : Char) : Bool :=
  c.isAlpha || c.isDigit || c = '_' || c = '.' || c = '-'

/-- Membership in the strip set of `str.strip("._")`. -/
def isDotOrUnderscore (c : Char) : Bool := c = '.' || c = '_'

/-- Python `str.strip("._")`: remove leading and trailing `'.'`/`'_'`. -/
def stripDotUnderscore (cs : List Char) : List Char :=
  ((cs.dropWhile isDotOrUnderscore).reverse.dropWhile isDotOrUnderscore).reverse

/-- `werkzeug.utils.secure_filename` as used at `main.py` line 74, on a
POSIX host (`os.sep = '/'`, `os.path.altsep = None`, `os.name != 'nt'`):
normalize to ASCII (`unicodedata.normalize('NFKD', ·)` followed by
`encode('ascii', 'ignore')`, modelled as dropping non-ASCII code points —
exact on ASCII input), replace the path separator by a space, split on
whitespace and re-join with `'_'`, delete every character outside
`[A-Za-z0-9_.-]`, and finally strip leading/trailing `'.'` and `'_'`. -/
def secure_filename (s : String) : String :=
  let cs0 := s.toList.filter (fun c => c.toNat < 128)
  let cs1 := cs0.map (fun c => if c = '/' then ' ' else c)
  let cs2 := List.intercalate ['_'] (splitWs cs1)
  let cs3 := cs2.filter allowedSecureChar
  String.mk (stripDotUnderscore cs3)

/-- Python `int(s)` on a string, modelled for inputs consisting of
optional surrounding ASCII whitespace, an optional sign and a nonempty
run of ASCII digits; every other string raises `ValueError` (`none`).
(CPython additionally accepts single underscores between digits; no
claim depends on that grouping syntax and it is omitted.) -/
def pyInt (s : String) : Option Int :=
  let cs := ((s.toList.dropWhile isPySpace).reverse.dropWhile isPySpace).reverse
  match cs with
  | [] => none
  | c :: rest =>
    let signed : Bool × List Char :=
      if c = '-' then (true, rest)
      else if c = '+' then (false, rest)
      else (false, c :: rest)
    if signed.2 ≠ [] ∧ signed.2.all Char.isDigit then
      let v : Nat := signed.2.foldl (fun a d => 10 * a + (d.toNat - 48)) 0
      some (if signed.1 then -(v : Int) else (v : Int))
    else none

/-- `int(request.form.get('initial_stock_count'))` at `main.py` line 93:
a missing field is `None`, and `int(None)` raises `TypeError` (`none`). -/
def pyIntOpt : Option String → Option Int
  | none => none
  | some s => pyInt s

/-- The exception text of the failed `int(...)` call (CPython wording;
no claim depends on the exact text). -/
def int_error_msg : Option String → String
  | none => "int() argument must be a string, a bytes-like object or a real number, not 'NoneType'"
  | some s => "invalid literal for int() with base 10: '" ++ s ++ "'"

/-- The `file` part of the multipart request (`request.files['file']`);
only its `filename` attribute is consulted before the save. -/
structure FileField where
  filename : String
deriving Repr, DecidableEq

/-- The POST request data consumed by `upload_file`: `request.form.get`
returns `none` for a missing field, and `request.files` may lack the
`'file'` part altogether. -/
structure UploadRequest where
  force_failure : Option String
  file : Option FileField
  product_name : Option String
  initial_stock_count : Option String
deriving Repr, DecidableEq

/-- One document of the MongoDB `file-uploads` collection
(`collection.insert_one({"file_path": filename})`, `main.py` line 80);
the store-generated `inserted_id` is modelled as a `Nat` counter. -/
structure MetaRecord where
  id : Nat
  file_path : String
deriving Repr, DecidableEq

/-- One row of the PostgreSQL `products` table (`main.py` lines 97-99). -/
structure Product where
  name : Option String
  image_mongodb_id : String
  stock_count : Int
  review : String
deriving Repr, DecidableEq

/-- The persistent state of the three external stores: the upload
directory (set of written filenames — file contents are not modelled),
the MongoDB collection, the PostgreSQL table, and the next generated
MongoDB id. -/
structure World where
  blob : List String
  meta : List MetaRecord
  products : List Product
  nextMetaId : Nat
deriving Repr, DecidableEq

/-- `file.save` overwrites an existing file of the same name, so the
blob directory is a set of names: writing adds the name if absent. -/
def writeBlob (b : List String) (n : String) : List String :=
  if n ∈ b then b else b ++ [n]

/-- Oracle for the exceptions the external collaborators may raise
inside the `try` block, in the order the code reaches them: `file.save`
(line 76), the MongoDB connect/insert (lines 79-81), the
`psycopg2.connect` (lines 84-89), and the `cur.execute`/`conn.commit`
(lines 97-100).  `none` means the step succeeds; `some e` means it
raises an exception whose `str` is `e`. -/
structure FailureModel where
  saveError : Option String
  metaError : Option String
  pgConnectError : Option String
  productError : Option String
deriving Repr, DecidableEq

/-- The all-steps-succeed oracle. -/
def noFailure : FailureModel := ⟨none, none, none, none⟩

/-- Side effects on the external stores, in the order performed. -/
inductive Event
  | fileWrite (name : String)
  | metaInsert (file_path : String) (id : Nat)
  | productInsert (p : Product)
deriving Repr, DecidableEq

/-- The value returned to the client by the POST branch of
`upload_file`: the backend-mode dict (line 110), the HTML fragment
(lines 113-119), `flash(msg)` followed by `redirect(request.url)`, or
the fall-through `render_template('upload_image.html')` at line 127. -/
inductive UploadResponse
  | jsonUpload (filename img_url : String)
  | htmlPage (filename img_url : String)
  | redirectFlash (msg : String)
  | renderUploadForm
deriving Repr, DecidableEq

/-- `url_for('download_file', name=filename)`: the route is
`/uploads/<name>` (line 147).  Flask percent-encodes the path segment;
on the output alphabet of `secure_filename` (`[A-Za-z0-9_.-]`, all
unreserved) the encoding is the identity, so it is not modelled. -/
def url_for_download_file (name : String) : String := "/uploads/" ++ name

/-- Result of one POST invocation: the new store state, the trace of
side effects that occurred, and the response. -/
structure UploadResult where
  world : World
  events : List Event
  response : UploadResponse
deriving Repr, DecidableEq

/-- The POST branch of `upload_file` (`main.py` lines 50-127), with the
run mode `ENV_MODE` and the failure oracle passed explicitly.  Mirrors
the source line by line: the forced-failure check, the two validation
returns, the `if file and allowed_file(...)` guard (the `file` object is
truthy exactly when its filename is nonempty, which was just checked),
the save / metadata insert / product insert sequence, and the single
`except` handler that flashes `"An error occurred: " + str(e)` and
redirects.  When the guard fails the `try` block ends without returning
and line 127 renders the upload form. -/
def upload_file_post (envMode : Option String) (fm : FailureModel)
    (req : UploadRequest) (w : World) : UploadResult :=
  if req.force_failure = some "true" then
    ⟨w, [], .redirectFlash "An error occurred: Forced failure triggered."⟩
  else
    match req.file with
    | none => ⟨w, [], .redirectFlash "No file part"⟩
    | some f =>
      if f.filename = "" then ⟨w, [], .redirectFlash "No selected file"⟩
      else if allowed_file f.filename then
        let filename := secure_filename f.filename
        match fm.saveError with
        | some e => ⟨w, [], .redirectFlash ("An error occurred: " ++ e)⟩
        | none =>
          let w1 : World := ⟨writeBlob w.blob filename, w.meta, w.products, w.nextMetaId⟩
          match fm.metaError with
          | some e => ⟨w1, [.fileWrite filename], .redirectFlash ("An error occurred: " ++ e)⟩
          | none =>
            let rid := w1.nextMetaId
            let w2 : World := ⟨w1.blob, w1.meta ++ [⟨rid, filename⟩], w1.products, rid + 1⟩
            let ev2 : List Event := [.fileWrite filename, .metaInsert filename rid]
            match fm.pgConnectError with
            | some e => ⟨w2, ev2, .redirectFlash ("An error occurred: " ++ e)⟩
            | none =>
              match pyIntOpt req.initial_stock_count with
              | none =>
                ⟨w2, ev2, .redirectFlash
                  ("An error occurred: " ++ int_error_msg req.initial_stock_count)⟩
              | some stock_count =>
                match fm.productError with
                | some e => ⟨w2, ev2, .redirectFlash ("An error occurred: " ++ e)⟩
                | none =>
                  let p : Product := ⟨req.product_name, toString rid, stock_count, "Sample Review"⟩
                  let w3 : World := ⟨w2.blob, w2.meta, w2.products ++ [p], w2.nextMetaId⟩
                  let img := url_for_download_file filename
                  if envMode = some "backend" then
                    ⟨w3, ev2 ++ [.productInsert p], .jsonUpload filename img⟩
                  else
                    ⟨w3, ev2 ++ [.productInsert p], .htmlPage filename img⟩
      else ⟨w, [], .renderUploadForm⟩

/-- Response of the `/images` route. -/
inductive ImagesResponse
  | jsonData (image_urls : List String)
  | htmlList (image_urls : List String)
deriving Repr, DecidableEq

/-- `show_uploaded_images` (`main.py` lines 129-145): fetch every
document of the `file-uploads` collection, map each to its download
URL, and return JSON in backend mode or the rendered list otherwise. -/
def show_uploaded_images (envMode : Option String) (w : World) : ImagesResponse :=
  let parsed := w.meta.map (fun r => url_for_download_file r.file_path)
  if envMode = some "backend" then .jsonData parsed else .htmlList parsed

/-- The generator of `watch_logs` (`main.py` lines 163-169) applied to
the sequence of `readline` results for the current file content: read a
line, stop as soon as `readline` returns the empty string (EOF), else
yield the line and continue.  (`readline` on a text file returns each
line with its terminator, hence a nonempty string, until EOF.) -/
def watch_logs_generate : List String → List String
  | [] => []
  | l :: ls => if l = "" then [] else l :: watch_logs_generate ls

/-- The request used in concrete witness computations: a valid
`photo.png` upload with `product_name="Widget"` and stock `"5"`. -/
def photoReq : UploadRequest := ⟨none, some ⟨"photo.png"⟩, some "Widget", some "5"⟩

/-- An empty initial store state. -/
def emptyWorld : World := ⟨[], [], [], 0⟩

/-- Discriminator for the flash-plus-redirect response shape. -/
def isRedirectFlash : UploadResponse → Bool
  | .redirectFlash _ => true
  | _ => false

/-- The filename an event carries into a store, if any. -/
def eventFilename : Event → Option String
  | .fileWrite n => some n
  | .metaInsert n _ => some n
  | .productInsert _ => none

/-- Absence of path-traversal material in a filename: no POSIX or
Windows path separator among its characters, and the name is not the
parent-directory component `".."` (having no separator, the whole name
is its only path component). -/
def noTraversal (s : String) : Bool :=
  s.toList.all (fun c => c ≠ '/' && c ≠ '\\') && s ≠ ".."

end FileUpload

example : FileUpload.allowed_file "photo.png" = true := by decide
example : FileUpload.allowed_file "PHOTO.PnG" = true := by decide
example : FileUpload.allowed_file "malware.exe" = false := by decide
example : FileUpload.allowed_file "nodot" = false := by decide
example : FileUpload.allowed_file ".png" = true := by decide
example : FileUpload.allowed_file "a.png.exe" = false := by decide
example : FileUpload.secure_filename "photo.png" = "photo.png" := by decide
example : FileUpload.secure_filename "../../etc/passwd" = "etc_passwd" := by decide
example : FileUpload.secure_filename "My cool movie.mov" = "My_cool_movie.mov" := by decide
example : FileUpload.secure_filename "i contain cool \x00umlauts.txt" = "i_contain_cool_umlauts.txt" := by decide

namespace FileUpload

/-- C3 counterexample: a `malware.exe` upload is indeed rejected with no
store write, but the rejection is NOT surfaced via redirect plus flash:
the `if file and allowed_file(...)` guard simply fails, the `try` block
falls through, and line 127 re-renders the upload form. -/
theorem disallowed_extension_counterexample :
    (upload_file_post (some "backend") noFailure
        ⟨none, some ⟨"malware.exe"⟩, some "Widget", some "5"⟩ emptyWorld).events = [] ∧
    (upload_file_post (some "backend") noFailure
        ⟨none, some ⟨"malware.exe"⟩, some "Widget", some "5"⟩ emptyWorld).response =
      .renderUploadForm ∧
    isRedirectFlash (upload_file_post (some "backend") noFailure
        ⟨none, some ⟨"malware.exe"⟩, some "Widget", some "5"⟩ emptyWorld).response = false := by
  decide

/-- C3 amended: a POST upload whose filename has a disallowed extension
(with the failure flag unset and a nonempty filename present) performs
no file write and no store write, leaves the state unchanged, and is
surfaced by re-rendering the upload form — not by a redirect or flash
message. -/
theorem disallowed_extension_rejected_no_writes (envMode : Option String)
    (fm : FailureModel) (req : UploadRequest) (w : World) (f : FileField)
    (h1 : req.force_failure ≠ some "true") (h2 : req.file = some f)
    (h3 : f.filename ≠ "") (h4 : allowed_file f.filename = false) :
    upload_file_post envMode fm req w = ⟨w, [], .renderUploadForm⟩ := by
  simp [upload_file_post, h1, h2, h3, h4]

/-- Witness for the amended C3 at the concrete `malware.exe` request. -/
theorem disallowed_extension_rejected_no_writes_witness :
    upload_file_post (some "backend") noFailure
        ⟨none, some ⟨"malware.exe"⟩, some "Widget", some "5"⟩ emptyWorld =
      ⟨emptyWorld, [], .renderUploadForm⟩ :=
  disallowed_extension_rejected_no_writes (some "backend") noFailure
    ⟨none, some ⟨"malware.exe"⟩, some "Widget", some "5"⟩ emptyWorld ⟨"malware.exe"⟩
    (by decide) rfl (by decide) (by decide)

/-- C6 counterexample: with `initial_stock_count="-5"` the parse
succeeds and the handler inserts a Product row whose `stock_count` is
the negative integer `-5`; nothing enforces `stock_count ≥ 0`. -/
theorem stock_count_nonneg_counterexample :
    (upload_file_post (some "backend") noFailure
        ⟨none, some ⟨"photo.png"⟩, some "Widget", some "-5"⟩ emptyWorld).world.products =
      [⟨some "Widget", "0", -5, "Sample Review"⟩] ∧ (-5 : Int) < 0 := by
  decide

/-- C6 amended: every Product row inserted by the handler has
`stock_count` equal to the integer `int(...)` parsed from the submitted
`initial_stock_count` — stored as-is, with no non-negativity check, so a
negative submitted value yields a negative stored value. -/
theorem stock_count_is_parsed_value (envMode : Option String)
    (fm : FailureModel) (req : UploadRequest) (w : World) (n : Int)
    (hn : pyIntOpt req.initial_stock_count = some n) :
    ∀ p : Product, Event.productInsert p ∈ (upload_file_post envMode fm req w).events →
      p.stock_count = n := by
  intro p hp
  unfold upload_file_post at hp
  repeat' split at hp
  all_goals simp_all [Event.productInsert.injEq]

/-- Witness for the amended C6: the concrete `-5` upload's inserted row
has `stock_count = -5`. -/
theorem stock_count_is_parsed_value_witness :
    (⟨some "Widget", "0", -5, "Sample Review"⟩ : Product).stock_count = -5 :=
  stock_count_is_parsed_value (some "backend") noFailure
    ⟨none, some ⟨"photo.png"⟩, some "Widget", some "-5"⟩ emptyWorld (-5) rfl
    ⟨some "Widget", "0", -5, "Sample Review"⟩ (by decide)

/-- C2: in every execution of the POST handler — any request, any run
mode, any pattern of collaborator failures — the trace of store side
effects is a prefix of the ordered sequence file write, metadata
insert, product insert (all on the same sanitized filename), and the
inserted product references the metadata record's generated id via its
`image_mongodb_id` field.  In particular a product insert happens only
after both the file write and the metadata insert succeeded. -/
theorem effects_ordered_product_last (envMode : Option String)
    (fm : FailureModel) (req : UploadRequest) (w : World) :
    (upload_file_post envMode fm req w).events = [] ∨
    (∃ n, (upload_file_post envMode fm req w).events = [.fileWrite n]) ∨
    (∃ n i, (upload_file_post envMode fm req w).events =
        [.fileWrite n, .metaInsert n i]) ∨
    (∃ n i p, (upload_file_post envMode fm req w).events =
        [.fileWrite n, .metaInsert n i, .productInsert p] ∧
      p.image_mongodb_id = toString i) := by
  unfold upload_file_post
  repeat' split
  all_goals first
    | exact Or.inl rfl
    | exact Or.inr (Or.inl ⟨_, rfl⟩)
    | exact Or.inr (Or.inr (Or.inl ⟨_, _, rfl⟩))
    | exact Or.inr (Or.inr (Or.inr ⟨_, _, _, rfl, rfl⟩))

/-- Writing a file leaves its name present in the blob directory. -/
theorem mem_writeBlob_self (b : List String) (n : String) : n ∈ writeBlob b n := by
  by_cases h : n ∈ b <;> simp [writeBlob, h]

/-- C1: a valid backend-mode upload (allowed extension, nonempty
filename, failure flag unset, integer stock count) on which every
collaborator step succeeds returns the structured response whose
`filename` is the sanitized name `N` and whose `img_url` is
`"/uploads/" ++ N`, and a subsequent backend-mode `/images` listing on
the resulting state includes an entry whose `image_url` is
`"/uploads/" ++ N`. -/
theorem backend_upload_success (req : UploadRequest) (w : World)
    (f : FileField) (n : Int)
    (h1 : req.force_failure ≠ some "true") (h2 : req.file = some f)
    (h3 : f.filename ≠ "") (h4 : allowed_file f.filename = true)
    (h5 : pyIntOpt req.initial_stock_count = some n) :
    (upload_file_post (some "backend") noFailure req w).response =
      .jsonUpload (secure_filename f.filename)
        ("/uploads/" ++ secure_filename f.filename) ∧
    ∃ urls, show_uploaded_images (some "backend")
        (upload_file_post (some "backend") noFailure req w).world = .jsonData urls ∧
      ("/uploads/" ++ secure_filename f.filename) ∈ urls := by
  have hw : (upload_file_post (some "backend") noFailure req w).world.meta =
      w.meta ++ [⟨w.nextMetaId, secure_filename f.filename⟩] := by
    simp [upload_file_post, noFailure, h1, h2, h3, h4, h5]
  refine ⟨?_, ?_⟩
  · simp [upload_file_post, noFailure, h1, h2, h3, h4, h5, url_for_download_file]
  · refine ⟨(upload_file_post (some "backend") noFailure req w).world.meta.map
        (fun r => url_for_download_file r.file_path), by simp [show_uploaded_images], ?_⟩
    rw [hw]
    simp [url_for_download_file]

/-- Witness for C1 at the concrete `photo.png` request of the spec. -/
theorem backend_upload_success_witness :
    (upload_file_post (some "backend") noFailure photoReq emptyWorld).response =
      .jsonUpload "photo.png" "/uploads/photo.png" ∧
    ∃ urls, show_uploaded_images (some "backend")
        (upload_file_post (some "backend") noFailure photoReq emptyWorld).world =
      .jsonData urls ∧ "/uploads/photo.png" ∈ urls := by
  have h := backend_upload_success photoReq emptyWorld ⟨"photo.png"⟩ 5
    (by decide) rfl (by decide) (by decide) rfl
  simpa only [show secure_filename "photo.png" = "photo.png" from by decide] using h

/-- C7: on a validated upload (failure flag unset, file present,
nonempty filename, allowed extension), if any step of the sequence
raises — the file save, the metadata insert, the relational connect,
the stock-count parse, or the product insert — the exception is caught
and the client is redirected with a flash message; and nothing done
before the failing step is rolled back: if the save succeeded the file
is still in the blob directory, and if the metadata insert also
succeeded its record is still in the metadata store. -/
theorem upload_exception_caught_no_rollback (envMode : Option String)
    (fm : FailureModel) (req : UploadRequest) (w : World) (f : FileField)
    (h1 : req.force_failure ≠ some "true") (h2 : req.file = some f)
    (h3 : f.filename ≠ "") (h4 : allowed_file f.filename = true)
    (h5 : fm.saveError ≠ none ∨ fm.metaError ≠ none ∨ fm.pgConnectError ≠ none ∨
          pyIntOpt req.initial_stock_count = none ∨ fm.productError ≠ none) :
    (∃ msg, (upload_file_post envMode fm req w).response = .redirectFlash msg) ∧
    (fm.saveError = none →
      secure_filename f.filename ∈ (upload_file_post envMode fm req w).world.blob) ∧
    (fm.saveError = none → fm.metaError = none →
      ∃ r ∈ (upload_file_post envMode fm req w).world.meta,
        r.file_path = secure_filename f.filename) := by
  rcases hs : fm.saveError with _ | es
  · rcases hm : fm.metaError with _ | em
    · rcases hp : fm.pgConnectError with _ | ep
      · rcases hi : pyIntOpt req.initial_stock_count with _ | sc
        · refine ⟨⟨"An error occurred: " ++ int_error_msg req.initial_stock_count, ?_⟩,
            fun _ => ?_, fun _ _ => ⟨⟨w.nextMetaId, secure_filename f.filename⟩, ?_, rfl⟩⟩ <;>
            simp [upload_file_post, h1, h2, h3, h4, hs, hm, hp, hi, mem_writeBlob_self]
        · rcases hq : fm.productError with _ | eq2
          · exact absurd h5 (by simp [hs, hm, hp, hi, hq])
          · refine ⟨⟨"An error occurred: " ++ eq2, ?_⟩,
              fun _ => ?_, fun _ _ => ⟨⟨w.nextMetaId, secure_filename f.filename⟩, ?_, rfl⟩⟩ <;>
              simp [upload_file_post, h1, h2, h3, h4, hs, hm, hp, hi, hq, mem_writeBlob_self]
      · refine ⟨⟨"An error occurred: " ++ ep, ?_⟩,
          fun _ => ?_, fun _ _ => ⟨⟨w.nextMetaId, secure_filename f.filename⟩, ?_, rfl⟩⟩ <;>
          simp [upload_file_post, h1, h2, h3, h4, hs, hm, hp, mem_writeBlob_self]
    · refine ⟨⟨"An error occurred: " ++ em, ?_⟩, fun _ => ?_,
        fun _ hmn => absurd hmn (by simp [hm])⟩ <;>
        simp [upload_file_post, h1, h2, h3, h4, hs, hm, mem_writeBlob_self]
  · exact ⟨⟨"An error occurred: " ++ es,
      by simp [upload_file_post, h1, h2, h3, h4, hs]⟩,
      fun hsn => absurd hsn (by simp [hs]),
      fun hsn _ => absurd hsn (by simp [hs])⟩

/-- Witness for C7: a non-integer stock count (`"abc"`) after a
successful save and metadata insert leaves both artifacts in place and
redirects with a flash message. -/
theorem upload_exception_caught_no_rollback_witness :
    (∃ msg, (upload_file_post (some "backend") noFailure
        ⟨none, some ⟨"photo.png"⟩, some "Widget", some "abc"⟩ emptyWorld).response =
      .redirectFlash msg) ∧
    "photo.png" ∈ (upload_file_post (some "backend") noFailure
        ⟨none, some ⟨"photo.png"⟩, some "Widget", some "abc"⟩ emptyWorld).world.blob ∧
    ∃ r ∈ (upload_file_post (some "backend") noFailure
        ⟨none, some ⟨"photo.png"⟩, some "Widget", some "abc"⟩ emptyWorld).world.meta,
      r.file_path = "photo.png" := by
  have h := upload_exception_caught_no_rollback (some "backend") noFailure
    ⟨none, some ⟨"photo.png"⟩, some "Widget", some "abc"⟩ emptyWorld ⟨"photo.png"⟩
    (by decide) rfl (by decide) (by decide)
    (Or.inr (Or.inr (Or.inr (Or.inl (by decide)))))
  refine ⟨h.1, ?_, ?_⟩
  · simpa only [show secure_filename "photo.png" = "photo.png" from by decide]
      using h.2.1 rfl
  · simpa only [show secure_filename "photo.png" = "photo.png" from by decide]
      using h.2.2 rfl rfl

/-- C4: if the `force_failure` form field equals `"true"`, the handler
raises before touching any store: the state is unchanged, no side effect
occurs, and the client gets the flash-plus-redirect error response,
regardless of every other field and of the run mode. -/
theorem forced_failure_aborts_everything (envMode : Option String)
    (fm : FailureModel) (req : UploadRequest) (w : World)
    (h : req.force_failure = some "true") :
    upload_file_post envMode fm req w =
      ⟨w, [], .redirectFlash "An error occurred: Forced failure triggered."⟩ := by
  simp [upload_file_post, h]

/-- Witness for C4 at a concrete request. -/
theorem forced_failure_aborts_everything_witness :
    upload_file_post (some "backend") noFailure
        ⟨some "true", some ⟨"photo.png"⟩, some "Widget", some "5"⟩ emptyWorld =
      ⟨emptyWorld, [], .redirectFlash "An error occurred: Forced failure triggered."⟩ :=
  forced_failure_aborts_everything (some "backend") noFailure
    ⟨some "true", some ⟨"photo.png"⟩, some "Widget", some "5"⟩ emptyWorld rfl

/-- C10: the forced-failure escape hatch compares the field against the
exact string `"true"`: for any other value (or an absent field) the
whole request is processed exactly as if the flag were unset. -/
theorem force_failure_only_exact_true (envMode : Option String)
    (fm : FailureModel) (req : UploadRequest) (w : World)
    (h : req.force_failure ≠ some "true") :
    upload_file_post envMode fm req w =
      upload_file_post envMode fm
        ⟨none, req.file, req.product_name, req.initial_stock_count⟩ w := by
  simp [upload_file_post, h]

/-- Witness for C10: `force_failure="True"` (capitalised) is processed
as if the flag were unset. -/
theorem force_failure_only_exact_true_witness :
    upload_file_post (some "backend") noFailure
        ⟨some "True", some ⟨"photo.png"⟩, some "Widget", some "5"⟩ emptyWorld =
      upload_file_post (some "backend") noFailure photoReq emptyWorld :=
  force_failure_only_exact_true (some "backend") noFailure
    ⟨some "True", some ⟨"photo.png"⟩, some "Widget", some "5"⟩ emptyWorld (by decide)

/-- C8: the `/logs` generator makes one finite pass over the lines
currently in the file: given the (nonempty) lines `readline` can return
before EOF, it yields exactly those lines in order and then terminates
(it is a total function, and it stops at the first empty `readline`
result rather than waiting for more). -/
theorem watch_logs_single_finite_pass (lines : List String)
    (h : ∀ l ∈ lines, l ≠ "") : watch_logs_generate lines = lines := by
  induction lines with
  | nil => rfl
  | cons l ls ih =>
    have hl : l ≠ "" := h l (List.mem_cons_self l ls)
    have hls : ∀ x ∈ ls, x ≠ "" := fun x hx => h x (List.mem_cons_of_mem l hx)
    simp [watch_logs_generate, hl, ih hls]

/-- Witness for C8 on a concrete two-line log. -/
theorem watch_logs_single_finite_pass_witness :
    watch_logs_generate ["INFO:main:Accessed the home page.\n", "INFO:main:Success.\n"] =
      ["INFO:main:Accessed the home page.\n", "INFO:main:Success.\n"] :=
  watch_logs_single_finite_pass
    ["INFO:main:Accessed the home page.\n", "INFO:main:Success.\n"] (by decide)

/-- The first element surviving `dropWhile p` falsifies `p`. -/
theorem dropWhile_eq_cons_head_false (p : Char → Bool) (l : List Char)
    (c : Char) (t : List Char) (h : l.dropWhile p = c :: t) : p c = false := by
  induction l with
  | nil => simp at h
  | cons x xs ih =>
    rw [List.dropWhile_cons] at h
    split at h
    · exact ih h
    · cases h; simp_all

/-- `rsplit('.', 1)[1]` of a string decomposed as `b ++ '.' :: e` with
no dot in `e` is exactly `e`. -/
theorem rsplitLast_append (b e : List Char) (he : e.contains '.' = false) :
    rsplitLast (b ++ '.' :: e) = e := by
  have hne : '.' ∉ e := by simpa using he
  have hall : ∀ a ∈ e.reverse, (fun c => decide (c ≠ '.')) a = true := by
    intro a ha
    rw [List.mem_reverse] at ha
    simp only [decide_eq_true_eq]
    exact fun hc => hne (hc ▸ ha)
  unfold rsplitLast
  rw [List.reverse_append, List.reverse_cons, List.append_assoc, List.singleton_append,
    List.takeWhile_append_of_pos hall, List.takeWhile_cons_of_neg (by simp)]
  simp

/-- Any character list containing a dot decomposes as everything up to
the last dot, the dot, and `rsplitLast` (which is dot-free). -/
theorem rsplitLast_decomp (cs : List Char) (h : '.' ∈ cs) :
    ∃ b, cs = b ++ '.' :: rsplitLast cs ∧ (rsplitLast cs).contains '.' = false := by
  have hsplit := List.takeWhile_append_dropWhile (fun c => decide (c ≠ '.')) cs.reverse
  cases hd : cs.reverse.dropWhile (fun c => decide (c ≠ '.')) with
  | nil =>
    exfalso
    rw [hd, List.append_nil] at hsplit
    have hmem : '.' ∈ cs.reverse := List.mem_reverse.mpr h
    rw [← hsplit] at hmem
    have := List.mem_takeWhile_imp hmem
    simp at this
  | cons c t =>
    have hc : c = '.' := by
      have := dropWhile_eq_cons_head_false (fun c => decide (c ≠ '.')) cs.reverse c t hd
      simpa using this
    subst hc
    refine ⟨t.reverse, ?_, ?_⟩
    · have : cs.reverse = cs.reverse.takeWhile (fun c => decide (c ≠ '.')) ++ '.' :: t := by
        rw [← hd]; exact hsplit.symm
      have hcs := congrArg List.reverse this
      rw [List.reverse_reverse, List.reverse_append, List.reverse_cons] at hcs
      have hr : rsplitLast cs =
          (List.takeWhile (fun c => decide (c ≠ '.')) cs.reverse).reverse := rfl
      rw [hr]
      conv_lhs => rw [hcs]
      rw [List.append_assoc, List.singleton_append]
    · have hall : ∀ a ∈ rsplitLast cs, a ≠ '.' := by
        intro a ha
        unfold rsplitLast at ha
        rw [List.mem_reverse] at ha
        have := List.mem_takeWhile_imp ha
        simpa using this
      simpa using fun hmem => (hall '.' hmem) rfl

/-- C9: `allowed_file` accepts exactly the filenames that contain a dot
and whose suffix after the last dot, lowercased, is one of the six
allowed extensions: it returns `true` iff the filename's characters
split as `b ++ '.' :: e` with `e` dot-free (so the split is at the last
dot) and the lowercasing of `e` in the allowed-extension list. -/
theorem allowed_file_iff (f : String) :
    allowed_file f = true ↔
      ∃ b e : List Char, f.toList = b ++ '.' :: e ∧ e.contains '.' = false ∧
        ALLOWED_EXTENSIONS.contains (String.mk (e.map Char.toLower)) = true := by
  unfold allowed_file
  rw [Bool.and_eq_true]
  constructor
  · rintro ⟨h1, h2⟩
    have hm : '.' ∈ f.toList := by simpa using h1
    obtain ⟨b, hb, hc⟩ := rsplitLast_decomp f.toList hm
    exact ⟨b, rsplitLast f.toList, hb, hc, h2⟩
  · rintro ⟨b, e, hbe, hce, hmem⟩
    refine ⟨?_, ?_⟩
    · rw [hbe]; simp
    · rw [hbe, rsplitLast_append b e hce]; exact hmem

/-- `dropWhile` only discards elements: survivors were in the list. -/
theorem mem_of_dropWhile_mem (p : Char → Bool) (l : List Char) (a : Char)
    (h : a ∈ l.dropWhile p) : a ∈ l := by
  induction l with
  | nil => simp at h
  | cons x xs ih =>
    rw [List.dropWhile_cons] at h
    split at h
    · exact List.mem_cons_of_mem x (ih h)
    · exact h

/-- Stripping leading/trailing `'.'`/`'_'` only discards characters. -/
theorem mem_of_strip_mem (l : List Char) (c : Char)
    (h : c ∈ stripDotUnderscore l) : c ∈ l := by
  unfold stripDotUnderscore at h
  rw [List.mem_reverse] at h
  have h2 := mem_of_dropWhile_mem _ _ _ h
  rw [List.mem_reverse] at h2
  exact mem_of_dropWhile_mem _ _ _ h2

/-- The strip result is empty or starts with a character outside the
strip set (in particular, never with a `'.'`). -/
theorem strip_head_not_stripped (l : List Char) :
    stripDotUnderscore l = [] ∨
    ∃ c t, stripDotUnderscore l = c :: t ∧ isDotOrUnderscore c = false := by
  unfold stripDotUnderscore
  cases hY : l.dropWhile isDotOrUnderscore with
  | nil => left; simp
  | cons c t =>
    have hc : isDotOrUnderscore c = false :=
      dropWhile_eq_cons_head_false isDotOrUnderscore l c t hY
    right
    rw [List.reverse_cons, List.dropWhile_append]
    split
    · exact ⟨c, [], by simp [List.dropWhile_cons, hc], hc⟩
    · exact ⟨c, (t.reverse.dropWhile isDotOrUnderscore).reverse,
        by rw [List.reverse_append]; simp, hc⟩

/-- Every character of a sanitized filename lies in the retained class
`[A-Za-z0-9_.-]` of `secure_filename`'s character filter. -/
theorem secure_filename_chars (s : String) :
    ∀ c ∈ (secure_filename s).toList, allowedSecureChar c = true := by
  intro c hc
  have hc' : c ∈ stripDotUnderscore
      ((List.intercalate ['_'] (splitWs ((s.toList.filter
        (fun c => c.toNat < 128)).map (fun c => if c = '/' then ' ' else c)))).filter
        allowedSecureChar) := hc
  have h2 := mem_of_strip_mem _ _ hc'
  exact (List.mem_filter.mp h2).2

/-- A sanitized filename is never the parent-directory name `".."`. -/
theorem secure_filename_ne_dotdot (s : String) : secure_filename s ≠ ".." := by
  intro h
  have hl : stripDotUnderscore
      ((List.intercalate ['_'] (splitWs ((s.toList.filter
        (fun c => c.toNat < 128)).map (fun c => if c = '/' then ' ' else c)))).filter
        allowedSecureChar) = ['.', '.'] := by
    have := congrArg String.toList h
    simpa using this
  rcases strip_head_not_stripped ((List.intercalate ['_'] (splitWs ((s.toList.filter
      (fun c => c.toNat < 128)).map (fun c => if c = '/' then ' ' else c)))).filter
      allowedSecureChar) with h0 | ⟨c, t, he, hcf⟩
  · rw [h0] at hl; simp at hl
  · rw [he] at hl
    have : c = '.' := by injection hl
    subst this
    simp [isDotOrUnderscore] at hcf

/-- C5: (1) for every submitted filename — including ones carrying
path-traversal material such as `"../../etc/passwd"` — the sanitized
name produced by `secure_filename` contains no path separator
(`'/'` or `'\\'`) and is not the `".."` component, so, having no
separators, it has no `".."` path component at all; and (2) in every
execution of the POST handler, the filename carried by any file-write
or metadata-insert side effect (the same name embedded in the download
URL) is exactly `secure_filename` of the submitted filename. -/
theorem sanitized_filename_no_traversal :
    (∀ s : String, noTraversal (secure_filename s) = true) ∧
    (∀ (envMode : Option String) (fm : FailureModel) (req : UploadRequest)
        (w : World) (f : FileField) (e : Event) (n : String),
      req.file = some f → e ∈ (upload_file_post envMode fm req w).events →
      eventFilename e = some n → n = secure_filename f.filename) := by
  constructor
  · intro s
    unfold noTraversal
    rw [Bool.and_eq_true]
    constructor
    · rw [List.all_eq_true]
      intro c hc
      have h := secure_filename_chars s c hc
      rw [Bool.and_eq_true]
      refine ⟨?_, ?_⟩ <;> simp only [decide_eq_true_eq] <;> intro hq <;> subst hq <;>
        exact absurd h (by decide)
    · simpa using secure_filename_ne_dotdot s
  · intro envMode fm req w f e n hf hmem hname
    unfold upload_file_post at hmem
    repeat' split at hmem
    all_goals simp_all [eventFilename]
    all_goals rcases hmem with rfl | rfl | rfl <;> simp_all [eventFilename]

/-- Witness for C5: part (1) applied to the traversal attempt
`"../../etc/passwd"`, and part (2) applied to the concrete file-write
event of an accepted `"../../etc/passwd.png"` upload, whose stored name
is the sanitized `"etc_passwd.png"`. -/
theorem sanitized_filename_no_traversal_witness :
    noTraversal (secure_filename "../../etc/passwd") = true ∧
    "etc_passwd.png" = secure_filename "../../etc/passwd.png" :=
  ⟨sanitized_filename_no_traversal.1 "../../etc/passwd",
    sanitized_filename_no_traversal.2 (some "backend") noFailure
      ⟨none, some ⟨"../../etc/passwd.png"⟩, some "Widget", some "5"⟩ emptyWorld
      ⟨"../../etc/passwd.png"⟩ (.fileWrite "etc_passwd.png") "etc_passwd.png"
      rfl (by decide) rfl⟩

end FileUpload

example : FileUpload.allowed_file "photo.png" = true := by decide
example : FileUpload.allowed_file "PHOTO.PnG" = true := by decide
example : FileUpload.allowed_file "malware.exe" = false := by decide
example : FileUpload.allowed_file "nodot" = false := by decide
example : FileUpload.allowed_file ".png" = true := by decide
example : FileUpload.allowed_file "a.png.exe" = false := by decide
example : FileUpload.secure_filename "photo.png" = "photo.png" := by decide
example : FileUpload.secure_filename "../../etc/passwd" = "etc_passwd" := by decide
example : FileUpload.secure_filename "My cool movie.mov" = "My_cool_movie.mov" := by decide
example : FileUpload.secure_filename "i contain cool \x00umlauts.txt" = "i_contain_cool_umlauts.txt" := by decide
